import Mathlib

/-!
# BitFunnel: row identifiers, block sizing and version tags

A shallow embedding of `src/Index/src/RowId.cpp`, `src/Index/src/Helpers.cpp` and
the class declared in `inc/BitFunnel/Utilities/Version.h`.

Machine integers are natural numbers; every store into a narrower object is an
explicit reduction modulo a power of two.  A `RowId` is the record of its four
bit-fields.  The three C++ constructors are `RowId.RowId` (validating),
`RowId.RowIdDefault` and `RowId.RowIdShifted`.
-/

namespace BitFunnel

/-! ## RowId.cpp -/

/-- Parameters of the `RowId` embedding.  The headers `BitFunnel/Index/RowId.h`
and `BitFunnel/BitFunnelTypes.h` are not among the sources, so the two bounds
that the validating constructor tests and the widths of the two packed
bit-fields it stores into are left open. -/
structure RowIdLayout where
  /-- The constant `c_maxRankValue`. -/
  c_maxRankValue : Nat
  /-- The constant `c_maxRowIndexValue`. -/
  c_maxRowIndexValue : Nat
  /-- Width in bits of the bit-field `m_rank`. -/
  rankBits : Nat
  /-- Width in bits of the bit-field `m_index`. -/
  indexBits : Nat
  deriving DecidableEq, Repr

/-- The data members of `class RowId`, in declaration order. -/
structure RowId where
  m_rank : Nat
  m_index : Nat
  m_isAdhoc : Nat
  m_unused : Nat
  deriving DecidableEq, Repr

/-- The `RecoverableError`s thrown in RowId.cpp, one constructor per message. -/
inductive RecoverableError where
  /-- "Dummy check. If we're here, there was memory corruption." -/
  | memoryCorruption
  /-- "RowId::RowId(): Row index out of range." -/
  | rowIndexOutOfRange
  /-- "RowId::RowId(): Rank out of range." -/
  | rankOutOfRange
  deriving DecidableEq, Repr

/-- Number of values of a `size_t` (the type behind `Rank` and `RowIndex`). -/
def c_sizeT : Nat := 2 ^ 64

/-- Number of values of a `uint32_t`. -/
def c_uint32 : Nat := 2 ^ 32

set_option linter.dupNamespace false

namespace RowId

/-- `RowId::RowId(Rank rank, RowIndex index, bool isAdhoc)`.  The member
initialisers run first and truncate to the bit-field widths; the body then
tests the untruncated arguments. -/
def RowId (L : RowIdLayout) (rank index : Nat) (isAdhoc : Bool) :
    Except RecoverableError BitFunnel.RowId :=
  let self : BitFunnel.RowId :=
    { m_rank := rank % 2 ^ L.rankBits
      m_index := index % 2 ^ L.indexBits
      m_isAdhoc := if isAdhoc then 1 else 0
      m_unused := 0 }
  if index > L.c_maxRowIndexValue then
    if self.m_unused ≠ 0 then
      Except.error RecoverableError.memoryCorruption
    else
      Except.error RecoverableError.rowIndexOutOfRange
  else if rank > L.c_maxRankValue then
    Except.error RecoverableError.rankOutOfRange
  else
    Except.ok self

/-- `RowId::RowId()`. -/
def RowIdDefault : BitFunnel.RowId :=
  { m_rank := 0, m_index := 0, m_isAdhoc := 0, m_unused := 0 }

/-- `RowId::RowId(const RowId& other, RowIndex index)`.  The sum is formed in
`size_t`, cast to `uint32_t` and stored into the bit-field `m_index`. -/
def RowIdShifted (L : RowIdLayout) (other : BitFunnel.RowId) (index : Nat) :
    BitFunnel.RowId :=
  { m_rank := other.m_rank
    m_index := (((other.m_index + index) % c_sizeT) % c_uint32) % 2 ^ L.indexBits
    m_isAdhoc := other.m_isAdhoc
    m_unused := 0 }

/-- `RowId::GetRank`. -/
def GetRank (self : BitFunnel.RowId) : Nat := self.m_rank

/-- `RowId::GetIndex`. -/
def GetIndex (self : BitFunnel.RowId) : Nat := self.m_index

/-- `RowId::IsAdhoc`. -/
def IsAdhoc (self : BitFunnel.RowId) : Bool := self.m_isAdhoc == 1

/-- `RowId::operator==`. -/
def eq (self other : BitFunnel.RowId) : Bool :=
  self.m_index == GetIndex other
    && self.m_rank == GetRank other
    && self.m_isAdhoc == other.m_isAdhoc

/-- `RowId::operator!=`. -/
def ne (self other : BitFunnel.RowId) : Bool := !(eq self other)

/-- `RowId::operator<`. -/
def lt (self other : BitFunnel.RowId) : Bool :=
  if self.m_rank ≠ other.m_rank then
    decide (self.m_rank < other.m_rank)
  else if self.m_index ≠ other.m_index then
    decide (self.m_index < other.m_index)
  else
    decide (self.m_isAdhoc < other.m_isAdhoc)

/-- `RowId::IsValid`. -/
def IsValid (_self : BitFunnel.RowId) : Bool := true

end RowId

/-- A layout used to run the definitions on concrete inputs: a 3-bit rank with
ranks `0..6` in use and a 27-bit row index. -/
def sampleLayout : RowIdLayout :=
  { c_maxRankValue := 6, c_maxRowIndexValue := 2 ^ 27 - 1, rankBits := 3, indexBits := 27 }

/-! ## Helpers.cpp -/

/-- Parameters of the block-sizing embedding: the collaborators that Helpers.cpp
calls and the constants it reads, none of which is among the sources
(`ITermTable`, Row.h, Shard.h and the cache-line constants, read as `size_t`s). -/
structure BlockSizingEnv (Schema TermTable : Type) where
  /-- `ITermTable::GetMaxRankUsed`. -/
  GetMaxRankUsed : TermTable → Nat
  /-- `Row::DocumentsInRank0Row(rowCount, maxRank)`. -/
  DocumentsInRank0Row : Nat → Nat → Nat
  /-- `Shard::InitializeDescriptors(buffer, capacity, schema, termTable)`; the
  buffer `none` is `nullptr`, the size-only call. -/
  InitializeDescriptors : Option Nat → Nat → Schema → TermTable → Nat
  /-- The constant `c_bytesPerCacheLine`. -/
  c_bytesPerCacheLine : Nat
  /-- The constant `c_bitsPerByte`. -/
  c_bitsPerByte : Nat

/-- The fatal configuration error of block sizing, which the spec lists as
`SizeOverflow`: "computed block size exceeds the representable range". -/
inductive FatalError where
  | sizeOverflow
  deriving DecidableEq, Repr

/-- Modelled from the spec: the value "rounded up to the next multiple" of a
positive quantum, which is the value "unchanged if it is already a multiple".
This is the exact result, before it is stored in any machine type. -/
def nextMultiple (value quanta : Nat) : Nat :=
  if value % quanta = 0 then value else value + (quanta - value % quanta)

/-- Modelled from the spec: `RoundUp<T>` lives in Rounding.h, which is not among
the sources.  At `T = size_t` it returns `nextMultiple value quanta` when that is
a `size_t`; a computed size that "overflows the representable byte-count range is
a fatal configuration error", which "must be checked explicitly rather than
allowed to wrap silently". -/
def RoundUp (value quanta : Nat) : Except FatalError Nat :=
  if nextMultiple value quanta < c_sizeT then
    Except.ok (nextMultiple value quanta)
  else
    Except.error FatalError.sizeOverflow

/-- `GetMinimumBlockSize(schema, termTable)`; the result is a `size_t`. -/
def GetMinimumBlockSize {Schema TermTable : Type} (E : BlockSizingEnv Schema TermTable)
    (schema : Schema) (termTable : TermTable) : Nat :=
  let capacity := E.DocumentsInRank0Row 1 (E.GetMaxRankUsed termTable)
  (E.InitializeDescriptors none capacity schema termTable) % c_sizeT

/-- `GetReasonableBlockSize(schema, termTable)`; `cachelineSize` is a `size_t`,
and the function returns what `RoundUp<size_t>` returns or raises. -/
def GetReasonableBlockSize {Schema TermTable : Type} (E : BlockSizingEnv Schema TermTable)
    (schema : Schema) (termTable : TermTable) : Except FatalError Nat :=
  let minimumFunctionalSize := GetMinimumBlockSize E schema termTable
  let cachelineSize := (E.c_bytesPerCacheLine * E.c_bitsPerByte) % c_sizeT
  RoundUp minimumFunctionalSize cachelineSize

/-- A configuration used to run the definitions: 64-byte cache lines, 8-bit
bytes, and a schema whose size-only descriptor pass reports `size` bytes. -/
def sampleEnv (size : Nat) : BlockSizingEnv Unit Unit :=
  { GetMaxRankUsed := fun _ => 3
    DocumentsInRank0Row := fun rowCount _ => rowCount * 64
    InitializeDescriptors := fun _ _ _ _ => size
    c_bytesPerCacheLine := 64
    c_bitsPerByte := 8 }

/-! ## Version.h -/

/-- The data members of `class Version` as Version.h declares them, three `int`s. -/
structure Version where
  m_versionMajor : Int
  m_versionMiddle : Int
  m_versionMinor : Int
  deriving DecidableEq, Repr

namespace Version

/-- Modelled from the spec: Version.cpp is not among the sources.  The accessor
"Return the Major, Middle, or Minor version number" of Version.h. -/
def VersionMajor (self : Version) : Int := self.m_versionMajor

/-- Modelled from the spec: Version.cpp is not among the sources.  The accessor
of the middle number. -/
def VersionMiddle (self : Version) : Int := self.m_versionMiddle

/-- Modelled from the spec: Version.cpp is not among the sources.  The accessor
of the minor number. -/
def VersionMinor (self : Version) : Int := self.m_versionMinor

/-- Modelled from the spec: Version.cpp is not among the sources.  The spec:
"true iff major and middle are pairwise equal; minor is ignored". -/
def IsCompatibleWith (self other : Version) : Bool :=
  self.m_versionMajor == other.m_versionMajor
    && self.m_versionMiddle == other.m_versionMiddle

/-- Modelled from the spec: Version.cpp is not among the sources.  The spec:
"incrementing major resets middle and minor to zero"; the result is a new value. -/
def IncrementMajor (self : Version) : Version :=
  { m_versionMajor := self.m_versionMajor + 1, m_versionMiddle := 0, m_versionMinor := 0 }

/-- Modelled from the spec: Version.cpp is not among the sources.  The spec:
"incrementing middle resets minor to zero". -/
def IncrementMiddle (self : Version) : Version :=
  { m_versionMajor := self.m_versionMajor
    m_versionMiddle := self.m_versionMiddle + 1
    m_versionMinor := 0 }

/-- Modelled from the spec: Version.cpp is not among the sources.  The spec:
"incrementing minor changes only minor". -/
def IncrementMinor (self : Version) : Version :=
  { m_versionMajor := self.m_versionMajor
    m_versionMiddle := self.m_versionMiddle
    m_versionMinor := self.m_versionMinor + 1 }

end Version

/-! ## Rank capacity -/

/-- Modelled from the spec: the rank arithmetic of `Row` is not among the sources
(Helpers.cpp only calls `Row::DocumentsInRank0Row`).  The spec: the capacity of
one row at the given rank, "computed from a rank-0 base capacity scaled by the
quantization growth factor raised to `rank`", where "each increment in rank
represents a doubling". -/
def documentsPerRow (rank quantizationBase : Nat) : Nat :=
  quantizationBase * 2 ^ rank

/-- Modelled from the spec: not among the sources.  The spec: "ceiling division
of `documentCapacity` by `documentsPerRow(rank, quantizationBase)`", in integer
arithmetic.  A division by a zero capacity has no value. -/
def rowsNeeded (rank documentCapacity quantizationBase : Nat) : Option Nat :=
  if documentsPerRow rank quantizationBase = 0 then
    none
  else
    some ((documentCapacity + (documentsPerRow rank quantizationBase - 1)) /
      documentsPerRow rank quantizationBase)

/-! ## Helper lemmas -/

theorem RowId_RowId_eq_ok (L : RowIdLayout) (rank index : Nat) (isAdhoc : Bool)
    (hi : index ≤ L.c_maxRowIndexValue) (hr : rank ≤ L.c_maxRankValue) :
    RowId.RowId L rank index isAdhoc =
      Except.ok { m_rank := rank % 2 ^ L.rankBits
                  m_index := index % 2 ^ L.indexBits
                  m_isAdhoc := if isAdhoc then 1 else 0
                  m_unused := 0 } := by
  simp [RowId.RowId, Nat.not_lt.mpr hi, Nat.not_lt.mpr hr]

theorem RowId_lt_eq_true_iff (a b : RowId) :
    RowId.lt a b = true ↔
      a.m_rank < b.m_rank ∨ (a.m_rank = b.m_rank ∧ a.m_index < b.m_index) ∨
        (a.m_rank = b.m_rank ∧ a.m_index = b.m_index ∧ a.m_isAdhoc < b.m_isAdhoc) := by
  unfold RowId.lt
  split_ifs with h1 h2
  · simp only [decide_eq_true_eq]; omega
  · simp only [decide_eq_true_eq]; omega
  · simp only [decide_eq_true_eq]; omega

theorem RowId_lt_eq_false_iff (a b : RowId) :
    RowId.lt a b = false ↔
      ¬ (a.m_rank < b.m_rank ∨ (a.m_rank = b.m_rank ∧ a.m_index < b.m_index) ∨
        (a.m_rank = b.m_rank ∧ a.m_index = b.m_index ∧ a.m_isAdhoc < b.m_isAdhoc)) := by
  rw [← RowId_lt_eq_true_iff, Bool.not_eq_true]

theorem RowId_eq_eq_true_iff (a b : RowId) :
    RowId.eq a b = true ↔
      a.m_rank = b.m_rank ∧ a.m_index = b.m_index ∧ a.m_isAdhoc = b.m_isAdhoc := by
  simp only [RowId.eq, RowId.GetIndex, RowId.GetRank, Bool.and_eq_true, beq_iff_eq]
  tauto

theorem RowId_eq_eq_false_iff (a b : RowId) :
    RowId.eq a b = false ↔
      ¬ (a.m_rank = b.m_rank ∧ a.m_index = b.m_index ∧ a.m_isAdhoc = b.m_isAdhoc) := by
  rw [← RowId_eq_eq_true_iff, Bool.not_eq_true]

theorem RowId_isAdhoc_eq_iff (a b : RowId) (ha : a.m_isAdhoc ≤ 1) (hb : b.m_isAdhoc ≤ 1) :
    RowId.IsAdhoc a = RowId.IsAdhoc b ↔ a.m_isAdhoc = b.m_isAdhoc := by
  have hcases : ∀ n : Nat, n ≤ 1 → n = 0 ∨ n = 1 := by intro n hn; omega
  rcases hcases _ ha with h | h <;> rcases hcases _ hb with h2 | h2 <;>
    simp [RowId.IsAdhoc, h, h2]

/-- Every constructor leaves `m_isAdhoc` at 0 or 1. -/
theorem RowId_RowId_isAdhoc_le_one (L : RowIdLayout) (rank index : Nat) (isAdhoc : Bool)
    (r : RowId) (h : RowId.RowId L rank index isAdhoc = Except.ok r) : r.m_isAdhoc ≤ 1 := by
  by_cases hi : index > L.c_maxRowIndexValue
  · simp [RowId.RowId, hi] at h
  · by_cases hr : rank > L.c_maxRankValue
    · simp [RowId.RowId, hi, hr] at h
    · rw [RowId_RowId_eq_ok L rank index isAdhoc (Nat.not_lt.mp hi) (Nat.not_lt.mp hr)] at h
      cases h
      cases isAdhoc <;> simp

theorem RowId_RowIdDefault_isAdhoc_le_one : RowId.RowIdDefault.m_isAdhoc ≤ 1 := by
  simp [RowId.RowIdDefault]

theorem RowId_RowIdShifted_isAdhoc_le_one (L : RowIdLayout) (other : RowId) (index : Nat)
    (h : other.m_isAdhoc ≤ 1) : (RowId.RowIdShifted L other index).m_isAdhoc ≤ 1 := h

theorem mod_sizeT_mod_uint32_mod_field (x w : Nat) (hw : w ≤ 32) :
    ((x % c_sizeT) % c_uint32) % 2 ^ w = x % 2 ^ w := by
  have h1 : (2 : Nat) ^ w ∣ 2 ^ 32 := Nat.pow_dvd_pow 2 hw
  have h2 : (2 : Nat) ^ 32 ∣ 2 ^ 64 := Nat.pow_dvd_pow 2 (by decide)
  unfold c_sizeT c_uint32
  rw [Nat.mod_mod_of_dvd _ h2, Nat.mod_mod_of_dvd _ h1]

theorem nextMultiple_ge (value quanta : Nat) : value ≤ nextMultiple value quanta := by
  unfold nextMultiple
  split_ifs <;> omega

theorem nextMultiple_mod (value quanta : Nat) (hq : 0 < quanta) :
    nextMultiple value quanta % quanta = 0 := by
  unfold nextMultiple
  split_ifs with h
  · exact h
  · have hlt : value % quanta < quanta := Nat.mod_lt _ hq
    have hdecomp := Nat.div_add_mod value quanta
    have hsum : value + (quanta - value % quanta) = quanta * (value / quanta + 1) := by
      rw [Nat.mul_add, Nat.mul_one]; omega
    rw [hsum]
    exact Nat.mul_mod_right _ _

theorem nextMultiple_lt_add (value quanta : Nat) (hq : 0 < quanta) :
    nextMultiple value quanta < value + quanta := by
  unfold nextMultiple
  split_ifs with h
  · omega
  · have hpos : 0 < value % quanta := Nat.pos_of_ne_zero h
    omega

theorem nextMultiple_least (value quanta n : Nat) (hq : 0 < quanta)
    (hn : n % quanta = 0) (hle : value ≤ n) : nextMultiple value quanta ≤ n := by
  by_contra hcon
  have hlt : n < nextMultiple value quanta := Nat.lt_of_not_le hcon
  have hr := nextMultiple_mod value quanta hq
  have hup := nextMultiple_lt_add value quanta hq
  obtain ⟨k, hk⟩ := Nat.dvd_of_mod_eq_zero hn
  obtain ⟨j, hj⟩ := Nat.dvd_of_mod_eq_zero hr
  rw [hk, hj] at hlt
  have hkj : k < j := Nat.lt_of_mul_lt_mul_left hlt
  have hstep : quanta * (k + 1) ≤ quanta * j := Nat.mul_le_mul_left _ hkj
  rw [Nat.mul_add, Nat.mul_one] at hstep
  omega

theorem nextMultiple_of_mod_eq_zero (value quanta : Nat) (h : value % quanta = 0) :
    nextMultiple value quanta = value := by
  simp [nextMultiple, h]

theorem GetMinimumBlockSize_lt {Schema TermTable : Type} (E : BlockSizingEnv Schema TermTable)
    (schema : Schema) (termTable : TermTable) :
    GetMinimumBlockSize E schema termTable < c_sizeT :=
  Nat.mod_lt _ (by decide)

theorem nextMultiple_lt_iff (value quanta : Nat) (hq : 0 < quanta) :
    nextMultiple value quanta < c_sizeT ↔
      ∃ n : Nat, n < c_sizeT ∧ n % quanta = 0 ∧ value ≤ n := by
  constructor
  · intro h
    exact ⟨_, h, nextMultiple_mod value quanta hq, nextMultiple_ge value quanta⟩
  · rintro ⟨n, hn, hmod, hle⟩
    exact Nat.lt_of_le_of_lt (nextMultiple_least value quanta n hq hmod hle) hn

theorem RoundUp_eq_ok_iff (value quanta r : Nat) :
    RoundUp value quanta = Except.ok r ↔
      nextMultiple value quanta < c_sizeT ∧ r = nextMultiple value quanta := by
  unfold RoundUp
  split_ifs with h
  · constructor
    · intro heq
      injection heq with heq
      exact ⟨h, heq.symm⟩
    · rintro ⟨-, rfl⟩
      rfl
  · constructor
    · intro heq
      cases heq
    · rintro ⟨hlt, -⟩
      exact absurd hlt h

theorem RoundUp_eq_error (value quanta : Nat) (h : ¬ nextMultiple value quanta < c_sizeT) :
    RoundUp value quanta = Except.error FatalError.sizeOverflow := by
  simp [RoundUp, h]

theorem GetReasonableBlockSize_eq {Schema TermTable : Type}
    (E : BlockSizingEnv Schema TermTable) (schema : Schema) (termTable : TermTable)
    (hq : E.c_bytesPerCacheLine * E.c_bitsPerByte < c_sizeT) :
    GetReasonableBlockSize E schema termTable =
      RoundUp (GetMinimumBlockSize E schema termTable)
        (E.c_bytesPerCacheLine * E.c_bitsPerByte) := by
  simp only [GetReasonableBlockSize, Nat.mod_eq_of_lt hq]

theorem RowId_RowId_ok_iff (L : RowIdLayout) (rank index : Nat) (isAdhoc : Bool) (r : RowId) :
    RowId.RowId L rank index isAdhoc = Except.ok r ↔
      index ≤ L.c_maxRowIndexValue ∧ rank ≤ L.c_maxRankValue ∧
        r = { m_rank := rank % 2 ^ L.rankBits
              m_index := index % 2 ^ L.indexBits
              m_isAdhoc := if isAdhoc then 1 else 0
              m_unused := 0 } := by
  by_cases hi : index > L.c_maxRowIndexValue
  · simp [RowId.RowId, hi]
  · by_cases hr : rank > L.c_maxRankValue
    · simp [RowId.RowId, hi, hr]
    · rw [RowId_RowId_eq_ok L rank index isAdhoc (Nat.not_lt.mp hi) (Nat.not_lt.mp hr)]
      constructor
      · intro h
        injection h with h
        exact ⟨Nat.not_lt.mp hi, Nat.not_lt.mp hr, h.symm⟩
      · rintro ⟨-, -, h⟩
        rw [h]

theorem RowIdShifted_index_le (L : RowIdLayout) (base : RowId) (delta : Nat) :
    (RowId.RowIdShifted L base delta).m_index ≤ base.m_index + delta := by
  simp only [RowId.RowIdShifted]
  exact Nat.le_trans (Nat.mod_le _ _) (Nat.le_trans (Nat.mod_le _ _) (Nat.mod_le _ _))

theorem RowIdShifted_index_eq (L : RowIdLayout) (hw : L.indexBits ≤ 32) (base : RowId)
    (delta : Nat) :
    (RowId.RowIdShifted L base delta).m_index = (base.m_index + delta) % 2 ^ L.indexBits := by
  simp only [RowId.RowIdShifted]
  exact mod_sizeT_mod_uint32_mod_field _ _ hw

theorem ceilDiv_le_iff (capacity d n : Nat) (hd : 0 < d) :
    (capacity + (d - 1)) / d ≤ n ↔ capacity ≤ n * d := by
  rw [← Nat.lt_succ_iff, Nat.div_lt_iff_lt_mul hd, Nat.succ_mul]
  omega

theorem rowsNeeded_eq_some (rank documentCapacity quantizationBase : Nat)
    (hd : 0 < documentsPerRow rank quantizationBase) :
    rowsNeeded rank documentCapacity quantizationBase =
      some ((documentCapacity + (documentsPerRow rank quantizationBase - 1)) /
        documentsPerRow rank quantizationBase) := by
  simp [rowsNeeded, Nat.ne_of_gt hd]

theorem documentsPerRow_pos (rank quantizationBase : Nat) (hb : 0 < quantizationBase) :
    0 < documentsPerRow rank quantizationBase :=
  Nat.mul_pos hb (Nat.pow_pos (by decide))

/-! ## Claims -/

/-- C1: the validating constructor throws exactly when `index > c_maxRowIndexValue`
or `rank > c_maxRankValue`; it succeeds at `index = c_maxRowIndexValue` for every
in-range rank and throws at `index = c_maxRowIndexValue + 1`. -/
theorem RowId_construct_fails_iff (L : RowIdLayout) :
    (∀ (rank index : Nat) (isAdhoc : Bool),
        (RowId.RowId L rank index isAdhoc).isOk = false ↔
          (index > L.c_maxRowIndexValue ∨ rank > L.c_maxRankValue)) ∧
    (∀ (rank : Nat) (isAdhoc : Bool), rank ≤ L.c_maxRankValue →
        (RowId.RowId L rank L.c_maxRowIndexValue isAdhoc).isOk = true) ∧
    (∀ (rank : Nat) (isAdhoc : Bool),
        RowId.RowId L rank (L.c_maxRowIndexValue + 1) isAdhoc =
          Except.error RecoverableError.rowIndexOutOfRange) := by
  refine ⟨?_, ?_, ?_⟩
  · intro rank index isAdhoc
    unfold RowId.RowId
    by_cases hi : index > L.c_maxRowIndexValue
    · simp [hi, Except.isOk, Except.toBool]
    · by_cases hr : rank > L.c_maxRankValue
      · simp [hi, hr, Except.isOk, Except.toBool]
      · simp [hi, hr, Except.isOk, Except.toBool]
  · intro rank isAdhoc hr
    rw [RowId_RowId_eq_ok L rank _ isAdhoc (Nat.le_refl _) hr]
    rfl
  · intro rank isAdhoc
    simp [RowId.RowId]

/-- C2: when the two bounds fit their bit-fields, a validated construction from an
in-range triple succeeds and the accessors read the same triple back. -/
theorem RowId_construct_read_back (L : RowIdLayout)
    (hRankFits : L.c_maxRankValue < 2 ^ L.rankBits)
    (hIndexFits : L.c_maxRowIndexValue < 2 ^ L.indexBits)
    (rank index : Nat) (isAdhoc : Bool)
    (hr : rank ≤ L.c_maxRankValue) (hi : index ≤ L.c_maxRowIndexValue) :
    ∃ r, RowId.RowId L rank index isAdhoc = Except.ok r ∧
      RowId.GetRank r = rank ∧ RowId.GetIndex r = index ∧ RowId.IsAdhoc r = isAdhoc := by
  refine ⟨_, RowId_RowId_eq_ok L rank index isAdhoc hi hr, ?_, ?_, ?_⟩
  · exact Nat.mod_eq_of_lt (Nat.lt_of_le_of_lt hr hRankFits)
  · exact Nat.mod_eq_of_lt (Nat.lt_of_le_of_lt hi hIndexFits)
  · cases isAdhoc <;> simp [RowId.IsAdhoc]

/-- Witness for C2 in `sampleLayout`: rank 6, the largest index, ad-hoc. -/
theorem RowId_construct_read_back_witness :
    ∃ r, RowId.RowId sampleLayout 6 (2 ^ 27 - 1) true = Except.ok r ∧
      RowId.GetRank r = 6 ∧ RowId.GetIndex r = 2 ^ 27 - 1 ∧ RowId.IsAdhoc r = true :=
  RowId_construct_read_back sampleLayout (by decide) (by decide) 6 (2 ^ 27 - 1) true
    (by decide) (by decide)

/-- C3: `operator<` is a strict order on all `RowId` values: irreflexive,
asymmetric and transitive. -/
theorem RowId_lt_strict_order :
    (∀ a : RowId, RowId.lt a a = false) ∧
    (∀ a b : RowId, RowId.lt a b = true → RowId.lt b a = false) ∧
    (∀ a b c : RowId, RowId.lt a b = true → RowId.lt b c = true → RowId.lt a c = true) := by
  refine ⟨?_, ?_, ?_⟩
  · intro a
    rw [RowId_lt_eq_false_iff]; omega
  · intro a b hab
    rw [RowId_lt_eq_true_iff] at hab
    rw [RowId_lt_eq_false_iff]; omega
  · intro a b c hab hbc
    rw [RowId_lt_eq_true_iff] at hab hbc ⊢
    omega

/-- C4: on values whose ad-hoc bit is 0 or 1, `operator<` is the lexicographic
order on (rank, index, isAdhoc) with "not ad-hoc" before "ad-hoc"; two rows that
differ only in the flag sort with the non-ad-hoc one first. -/
theorem RowId_lt_iff_lexicographic (a b : RowId)
    (ha : a.m_isAdhoc ≤ 1) (hb : b.m_isAdhoc ≤ 1) :
    (RowId.lt a b = true ↔
      RowId.GetRank a < RowId.GetRank b ∨
      (RowId.GetRank a = RowId.GetRank b ∧ RowId.GetIndex a < RowId.GetIndex b) ∨
      (RowId.GetRank a = RowId.GetRank b ∧ RowId.GetIndex a = RowId.GetIndex b ∧
        RowId.IsAdhoc a = false ∧ RowId.IsAdhoc b = true)) ∧
    (RowId.GetRank a = RowId.GetRank b → RowId.GetIndex a = RowId.GetIndex b →
      RowId.IsAdhoc a = false → RowId.IsAdhoc b = true →
        RowId.lt a b = true ∧ RowId.lt b a = false) := by
  have hflag : a.m_isAdhoc < b.m_isAdhoc ↔
      (RowId.IsAdhoc a = false ∧ RowId.IsAdhoc b = true) := by
    simp only [RowId.IsAdhoc, beq_eq_false_iff_ne, beq_iff_eq]
    omega
  refine ⟨?_, ?_⟩
  · rw [RowId_lt_eq_true_iff, hflag]
    simp only [RowId.GetRank, RowId.GetIndex]
  · intro hr hi hna hnb
    simp only [RowId.GetRank, RowId.GetIndex] at hr hi
    have hlt := hflag.mpr ⟨hna, hnb⟩
    rw [RowId_lt_eq_true_iff, RowId_lt_eq_false_iff]
    omega

/-- Witness for C4: rows (2, 5, not ad-hoc) and (2, 5, ad-hoc). -/
theorem RowId_lt_iff_lexicographic_witness :
    (RowId.lt ⟨2, 5, 0, 0⟩ ⟨2, 5, 1, 0⟩ = true ↔
      RowId.GetRank ⟨2, 5, 0, 0⟩ < RowId.GetRank ⟨2, 5, 1, 0⟩ ∨
      (RowId.GetRank ⟨2, 5, 0, 0⟩ = RowId.GetRank ⟨2, 5, 1, 0⟩ ∧
        RowId.GetIndex ⟨2, 5, 0, 0⟩ < RowId.GetIndex ⟨2, 5, 1, 0⟩) ∨
      (RowId.GetRank ⟨2, 5, 0, 0⟩ = RowId.GetRank ⟨2, 5, 1, 0⟩ ∧
        RowId.GetIndex ⟨2, 5, 0, 0⟩ = RowId.GetIndex ⟨2, 5, 1, 0⟩ ∧
        RowId.IsAdhoc ⟨2, 5, 0, 0⟩ = false ∧ RowId.IsAdhoc ⟨2, 5, 1, 0⟩ = true)) ∧
    (RowId.GetRank ⟨2, 5, 0, 0⟩ = RowId.GetRank ⟨2, 5, 1, 0⟩ →
      RowId.GetIndex ⟨2, 5, 0, 0⟩ = RowId.GetIndex ⟨2, 5, 1, 0⟩ →
      RowId.IsAdhoc ⟨2, 5, 0, 0⟩ = false → RowId.IsAdhoc ⟨2, 5, 1, 0⟩ = true →
        RowId.lt ⟨2, 5, 0, 0⟩ ⟨2, 5, 1, 0⟩ = true ∧
          RowId.lt ⟨2, 5, 1, 0⟩ ⟨2, 5, 0, 0⟩ = false) :=
  RowId_lt_iff_lexicographic ⟨2, 5, 0, 0⟩ ⟨2, 5, 1, 0⟩ (by decide) (by decide)

/-- C5: the order is total and consistent with equality: for every pair of values
exactly one of `a < b`, `a == b`, `b < a` holds, and `a == b` holds exactly when
neither `a < b` nor `b < a` does. -/
theorem RowId_lt_trichotomy (a b : RowId) :
    ((RowId.lt a b = true ∧ RowId.eq a b = false ∧ RowId.lt b a = false) ∨
     (RowId.lt a b = false ∧ RowId.eq a b = true ∧ RowId.lt b a = false) ∨
     (RowId.lt a b = false ∧ RowId.eq a b = false ∧ RowId.lt b a = true)) ∧
    (RowId.eq a b = true ↔ (RowId.lt a b = false ∧ RowId.lt b a = false)) := by
  simp only [RowId_lt_eq_true_iff, RowId_lt_eq_false_iff, RowId_eq_eq_true_iff,
    RowId_eq_eq_false_iff]
  omega

/-- C6: on values whose ad-hoc bit is 0 or 1, `operator==` holds exactly when the
three accessors agree, `operator!=` is its negation, and rows with the same rank
and index but different ad-hoc flags are not equal. -/
theorem RowId_eq_iff_fields (a b : RowId)
    (ha : a.m_isAdhoc ≤ 1) (hb : b.m_isAdhoc ≤ 1) :
    (RowId.eq a b = true ↔
      (RowId.GetRank a = RowId.GetRank b ∧ RowId.GetIndex a = RowId.GetIndex b ∧
        RowId.IsAdhoc a = RowId.IsAdhoc b)) ∧
    RowId.ne a b = !(RowId.eq a b) ∧
    (RowId.GetRank a = RowId.GetRank b → RowId.GetIndex a = RowId.GetIndex b →
      RowId.IsAdhoc a ≠ RowId.IsAdhoc b →
        RowId.eq a b = false ∧ RowId.ne a b = true) := by
  have hiff : RowId.eq a b = true ↔
      (RowId.GetRank a = RowId.GetRank b ∧ RowId.GetIndex a = RowId.GetIndex b ∧
        RowId.IsAdhoc a = RowId.IsAdhoc b) := by
    rw [RowId_eq_eq_true_iff, RowId_isAdhoc_eq_iff a b ha hb]
    simp only [RowId.GetRank, RowId.GetIndex]
  refine ⟨hiff, rfl, ?_⟩
  intro hr hi hne
  have hfalse : RowId.eq a b = false := by
    rw [← Bool.not_eq_true, hiff]
    exact fun h => hne h.2.2
  exact ⟨hfalse, by simp [RowId.ne, hfalse]⟩

/-- Witness for C6: rows (1, 9, ad-hoc) and (1, 9, not ad-hoc). -/
theorem RowId_eq_iff_fields_witness :
    (RowId.eq ⟨1, 9, 1, 0⟩ ⟨1, 9, 0, 0⟩ = true ↔
      (RowId.GetRank ⟨1, 9, 1, 0⟩ = RowId.GetRank ⟨1, 9, 0, 0⟩ ∧
        RowId.GetIndex ⟨1, 9, 1, 0⟩ = RowId.GetIndex ⟨1, 9, 0, 0⟩ ∧
        RowId.IsAdhoc ⟨1, 9, 1, 0⟩ = RowId.IsAdhoc ⟨1, 9, 0, 0⟩)) ∧
    RowId.ne ⟨1, 9, 1, 0⟩ ⟨1, 9, 0, 0⟩ = !(RowId.eq ⟨1, 9, 1, 0⟩ ⟨1, 9, 0, 0⟩) ∧
    (RowId.GetRank ⟨1, 9, 1, 0⟩ = RowId.GetRank ⟨1, 9, 0, 0⟩ →
      RowId.GetIndex ⟨1, 9, 1, 0⟩ = RowId.GetIndex ⟨1, 9, 0, 0⟩ →
      RowId.IsAdhoc ⟨1, 9, 1, 0⟩ ≠ RowId.IsAdhoc ⟨1, 9, 0, 0⟩ →
        RowId.eq ⟨1, 9, 1, 0⟩ ⟨1, 9, 0, 0⟩ = false ∧
          RowId.ne ⟨1, 9, 1, 0⟩ ⟨1, 9, 0, 0⟩ = true) :=
  RowId_eq_iff_fields ⟨1, 9, 1, 0⟩ ⟨1, 9, 0, 0⟩ (by decide) (by decide)

/-- C7: when the index bit-field is at most 32 bits wide, the shifted constructor
(a total function: it has no failing path) keeps the rank and the ad-hoc flag of
`base` and sets the index to `base.index + delta` reduced modulo `2 ^ indexBits`. -/
theorem RowId_shifted_fields (L : RowIdLayout) (hw : L.indexBits ≤ 32)
    (base : RowId) (delta : Nat) :
    RowId.GetRank (RowId.RowIdShifted L base delta) = RowId.GetRank base ∧
    RowId.IsAdhoc (RowId.RowIdShifted L base delta) = RowId.IsAdhoc base ∧
    RowId.GetIndex (RowId.RowIdShifted L base delta) =
      (RowId.GetIndex base + delta) % 2 ^ L.indexBits := by
  refine ⟨rfl, rfl, ?_⟩
  simp only [RowId.GetIndex, RowId.RowIdShifted]
  exact mod_sizeT_mod_uint32_mod_field _ _ hw

/-- Witness for C7 in `sampleLayout`: shifting index `2 ^ 27 - 1` by 3 wraps to 2. -/
theorem RowId_shifted_fields_witness :
    RowId.GetRank (RowId.RowIdShifted sampleLayout ⟨4, 2 ^ 27 - 1, 1, 0⟩ 3) =
      RowId.GetRank ⟨4, 2 ^ 27 - 1, 1, 0⟩ ∧
    RowId.IsAdhoc (RowId.RowIdShifted sampleLayout ⟨4, 2 ^ 27 - 1, 1, 0⟩ 3) =
      RowId.IsAdhoc ⟨4, 2 ^ 27 - 1, 1, 0⟩ ∧
    RowId.GetIndex (RowId.RowIdShifted sampleLayout ⟨4, 2 ^ 27 - 1, 1, 0⟩ 3) =
      (RowId.GetIndex ⟨4, 2 ^ 27 - 1, 1, 0⟩ + 3) % 2 ^ sampleLayout.indexBits :=
  RowId_shifted_fields sampleLayout (by decide) ⟨4, 2 ^ 27 - 1, 1, 0⟩ 3

/-- C8: for a positive cache-line size in bits that is itself a `size_t`, every
size that `GetReasonableBlockSize` returns is at least the minimum size and a
multiple of the cache-line size; it returns a size exactly when some `size_t`
multiple of the cache-line size is at least the minimum, and raises `SizeOverflow`
when there is none. -/
theorem GetReasonableBlockSize_ge_and_aligned {Schema TermTable : Type}
    (E : BlockSizingEnv Schema TermTable) (schema : Schema) (termTable : TermTable)
    (hq0 : 0 < E.c_bytesPerCacheLine * E.c_bitsPerByte)
    (hq : E.c_bytesPerCacheLine * E.c_bitsPerByte < c_sizeT) :
    (∀ r : Nat, GetReasonableBlockSize E schema termTable = Except.ok r →
      r ≥ GetMinimumBlockSize E schema termTable ∧
      r % (E.c_bytesPerCacheLine * E.c_bitsPerByte) = 0) ∧
    ((∃ r : Nat, GetReasonableBlockSize E schema termTable = Except.ok r) ↔
      ∃ n : Nat, n < c_sizeT ∧ n % (E.c_bytesPerCacheLine * E.c_bitsPerByte) = 0 ∧
        GetMinimumBlockSize E schema termTable ≤ n) ∧
    ((¬ ∃ n : Nat, n < c_sizeT ∧ n % (E.c_bytesPerCacheLine * E.c_bitsPerByte) = 0 ∧
        GetMinimumBlockSize E schema termTable ≤ n) →
      GetReasonableBlockSize E schema termTable = Except.error FatalError.sizeOverflow) := by
  rw [GetReasonableBlockSize_eq E schema termTable hq]
  refine ⟨?_, ?_, ?_⟩
  · intro r hr
    obtain ⟨-, rfl⟩ := (RoundUp_eq_ok_iff _ _ r).mp hr
    exact ⟨nextMultiple_ge _ _, nextMultiple_mod _ _ hq0⟩
  · rw [← nextMultiple_lt_iff _ _ hq0]
    constructor
    · rintro ⟨r, hr⟩
      exact ((RoundUp_eq_ok_iff _ _ r).mp hr).1
    · intro hfit
      exact ⟨_, (RoundUp_eq_ok_iff _ _ _).mpr ⟨hfit, rfl⟩⟩
  · rw [← nextMultiple_lt_iff _ _ hq0]
    exact RoundUp_eq_error _ _

/-- Witness for C8: a minimum of 1000 bytes with 512-bit cache lines gives 1024. -/
theorem GetReasonableBlockSize_ge_and_aligned_witness :
    GetReasonableBlockSize (sampleEnv 1000) () () = Except.ok 1024 ∧
    1024 ≥ GetMinimumBlockSize (sampleEnv 1000) () () ∧
    1024 % ((sampleEnv 1000).c_bytesPerCacheLine * (sampleEnv 1000).c_bitsPerByte) = 0 :=
  ⟨rfl,
    (GetReasonableBlockSize_ge_and_aligned (sampleEnv 1000) () () (by decide) (by decide)).1
      1024 rfl⟩

/-- C9: for a positive cache-line size in bits that is itself a `size_t`, a size
that `GetReasonableBlockSize` returns is the smallest multiple of the cache-line
size that is at least the minimum size, and exceeds the minimum by less than one
cache line; a size is returned whenever such a multiple exists among the
`size_t`s; and a minimum that is already a multiple is returned unchanged. -/
theorem GetReasonableBlockSize_least_multiple {Schema TermTable : Type}
    (E : BlockSizingEnv Schema TermTable) (schema : Schema) (termTable : TermTable)
    (hq0 : 0 < E.c_bytesPerCacheLine * E.c_bitsPerByte)
    (hq : E.c_bytesPerCacheLine * E.c_bitsPerByte < c_sizeT) :
    (∀ r : Nat, GetReasonableBlockSize E schema termTable = Except.ok r →
      r % (E.c_bytesPerCacheLine * E.c_bitsPerByte) = 0 ∧
      GetMinimumBlockSize E schema termTable ≤ r ∧
      (∀ n : Nat, n % (E.c_bytesPerCacheLine * E.c_bitsPerByte) = 0 →
        GetMinimumBlockSize E schema termTable ≤ n → r ≤ n) ∧
      r < GetMinimumBlockSize E schema termTable +
        E.c_bytesPerCacheLine * E.c_bitsPerByte) ∧
    ((∃ n : Nat, n < c_sizeT ∧ n % (E.c_bytesPerCacheLine * E.c_bitsPerByte) = 0 ∧
        GetMinimumBlockSize E schema termTable ≤ n) →
      ∃ r : Nat, GetReasonableBlockSize E schema termTable = Except.ok r) ∧
    (GetMinimumBlockSize E schema termTable %
        (E.c_bytesPerCacheLine * E.c_bitsPerByte) = 0 →
      GetReasonableBlockSize E schema termTable =
        Except.ok (GetMinimumBlockSize E schema termTable)) := by
  rw [GetReasonableBlockSize_eq E schema termTable hq]
  refine ⟨?_, ?_, ?_⟩
  · intro r hr
    obtain ⟨-, rfl⟩ := (RoundUp_eq_ok_iff _ _ r).mp hr
    exact ⟨nextMultiple_mod _ _ hq0, nextMultiple_ge _ _,
      fun n hn hle => nextMultiple_least _ _ n hq0 hn hle, nextMultiple_lt_add _ _ hq0⟩
  · intro hfit
    exact ⟨_, (RoundUp_eq_ok_iff _ _ _).mpr ⟨(nextMultiple_lt_iff _ _ hq0).mpr hfit, rfl⟩⟩
  · intro hmul
    rw [RoundUp_eq_ok_iff, nextMultiple_of_mod_eq_zero _ _ hmul]
    exact ⟨GetMinimumBlockSize_lt E schema termTable, rfl⟩

/-- Witness for C9: a minimum of 1000 bytes is rounded up to 1024, a minimum of
1024 bytes is returned unchanged. -/
theorem GetReasonableBlockSize_least_multiple_witness :
    GetReasonableBlockSize (sampleEnv 1000) () () = Except.ok 1024 ∧
    (1024 % ((sampleEnv 1000).c_bytesPerCacheLine * (sampleEnv 1000).c_bitsPerByte) = 0 ∧
      GetMinimumBlockSize (sampleEnv 1000) () () ≤ 1024 ∧
      (∀ n : Nat, n % ((sampleEnv 1000).c_bytesPerCacheLine *
          (sampleEnv 1000).c_bitsPerByte) = 0 →
        GetMinimumBlockSize (sampleEnv 1000) () () ≤ n → 1024 ≤ n) ∧
      1024 < GetMinimumBlockSize (sampleEnv 1000) () () +
        (sampleEnv 1000).c_bytesPerCacheLine * (sampleEnv 1000).c_bitsPerByte) ∧
    GetReasonableBlockSize (sampleEnv 1024) () () =
      Except.ok (GetMinimumBlockSize (sampleEnv 1024) () ()) :=
  ⟨rfl,
    (GetReasonableBlockSize_least_multiple (sampleEnv 1000) () () (by decide) (by decide)).1
      1024 rfl,
    (GetReasonableBlockSize_least_multiple (sampleEnv 1024) () () (by decide) (by decide)).2.2
      (by decide)⟩

/-- C11: two versions are compatible exactly when their major and middle numbers
agree; the minor number is ignored and the relation is symmetric.  (1,0,3) and
(1,0,7) are compatible; (1,0,3) and (1,1,0), and (2,0,0) and (1,9,9), are not. -/
theorem Version_isCompatibleWith_iff :
    (∀ a b : Version, Version.IsCompatibleWith a b = true ↔
      (Version.VersionMajor a = Version.VersionMajor b ∧
        Version.VersionMiddle a = Version.VersionMiddle b)) ∧
    (∀ (a b : Version) (minor : Int),
      Version.IsCompatibleWith a { b with m_versionMinor := minor } =
        Version.IsCompatibleWith a b) ∧
    (∀ a b : Version, Version.IsCompatibleWith a b = Version.IsCompatibleWith b a) ∧
    Version.IsCompatibleWith ⟨1, 0, 3⟩ ⟨1, 0, 7⟩ = true ∧
    Version.IsCompatibleWith ⟨1, 0, 3⟩ ⟨1, 1, 0⟩ = false ∧
    Version.IsCompatibleWith ⟨2, 0, 0⟩ ⟨1, 9, 9⟩ = false := by
  refine ⟨?_, ?_, ?_, by decide, by decide, by decide⟩
  · intro a b
    simp [Version.IsCompatibleWith, Version.VersionMajor, Version.VersionMiddle]
  · intro a b minor
    rfl
  · intro a b
    simp only [Version.IsCompatibleWith]
    rw [Bool.eq_iff_iff]
    simp only [Bool.and_eq_true, beq_iff_eq]
    constructor <;> rintro ⟨h1, h2⟩ <;> exact ⟨h1.symm, h2.symm⟩

/-- C12: for a version (major, middle, minor) the three increments return
(major+1, 0, 0), (major, middle+1, 0) and (major, middle, minor+1); they are
functions of the value, which itself is not changed. -/
theorem Version_increment_fields (major middle minor : Int) :
    Version.IncrementMajor ⟨major, middle, minor⟩ = ⟨major + 1, 0, 0⟩ ∧
    Version.IncrementMiddle ⟨major, middle, minor⟩ = ⟨major, middle + 1, 0⟩ ∧
    Version.IncrementMinor ⟨major, middle, minor⟩ = ⟨major, middle, minor + 1⟩ ∧
    (∀ v : Version,
      Version.VersionMajor (Version.IncrementMajor v) = Version.VersionMajor v + 1 ∧
      Version.VersionMiddle (Version.IncrementMajor v) = 0 ∧
      Version.VersionMinor (Version.IncrementMajor v) = 0 ∧
      Version.VersionMajor (Version.IncrementMiddle v) = Version.VersionMajor v ∧
      Version.VersionMiddle (Version.IncrementMiddle v) = Version.VersionMiddle v + 1 ∧
      Version.VersionMinor (Version.IncrementMiddle v) = 0 ∧
      Version.VersionMajor (Version.IncrementMinor v) = Version.VersionMajor v ∧
      Version.VersionMiddle (Version.IncrementMinor v) = Version.VersionMiddle v ∧
      Version.VersionMinor (Version.IncrementMinor v) = Version.VersionMinor v + 1) := by
  refine ⟨rfl, rfl, rfl, ?_⟩
  intro v
  exact ⟨rfl, rfl, rfl, rfl, rfl, rfl, rfl, rfl, rfl⟩

/-- C13: a version with its minor number incremented stays compatible with the
original; with its major or its middle number incremented it does not. -/
theorem Version_increment_compatibility (a : Version) :
    Version.IsCompatibleWith (Version.IncrementMinor a) a = true ∧
    Version.IsCompatibleWith (Version.IncrementMajor a) a = false ∧
    Version.IsCompatibleWith (Version.IncrementMiddle a) a = false := by
  refine ⟨?_, ?_, ?_⟩
  · simp [Version.IsCompatibleWith, Version.IncrementMinor]
  · simp [Version.IsCompatibleWith, Version.IncrementMajor]
  · simp [Version.IsCompatibleWith, Version.IncrementMiddle]

/-- C14: the default constructor yields rank 0, index 0, not ad-hoc, and that value
is `operator==`-equal to the validated `RowId(0, 0, false)`, which is constructed
without error in every layout. -/
theorem RowId_default_is_zero (L : RowIdLayout) :
    RowId.GetRank RowId.RowIdDefault = 0 ∧
    RowId.GetIndex RowId.RowIdDefault = 0 ∧
    RowId.IsAdhoc RowId.RowIdDefault = false ∧
    ∃ r, RowId.RowId L 0 0 false = Except.ok r ∧ RowId.eq RowId.RowIdDefault r = true := by
  refine ⟨rfl, rfl, rfl, ?_⟩
  refine ⟨_, RowId_RowId_eq_ok L 0 0 false (Nat.zero_le _) (Nat.zero_le _), ?_⟩
  rw [RowId_eq_eq_true_iff]
  simp [RowId.RowIdDefault]

/-- C15: for every rank and every positive base `rowsNeeded` is the ceiling of
capacity / `documentsPerRow` in exact integer arithmetic: the least `r` with
`capacity ≤ r * documentsPerRow`.  It is 0 for capacity 0 (and for no rank or
base is a capacity of 0 given any other value), exactly 1 for a capacity equal to
`documentsPerRow`, and 3 for rank 0, base 2048, capacity 5000. -/
theorem rowsNeeded_ceiling :
    (∀ rank capacity base : Nat, 0 < base →
      ∃ r : Nat, rowsNeeded rank capacity base = some r ∧
        capacity ≤ r * documentsPerRow rank base ∧
        ∀ n : Nat, capacity ≤ n * documentsPerRow rank base → r ≤ n) ∧
    (∀ rank base : Nat, 0 < base → rowsNeeded rank 0 base = some 0) ∧
    (∀ rank base r : Nat, rowsNeeded rank 0 base = some r → r = 0) ∧
    (∀ rank base : Nat, 0 < base →
      rowsNeeded rank (documentsPerRow rank base) base = some 1) ∧
    rowsNeeded 0 5000 2048 = some 3 := by
  have hzero : ∀ d : Nat, 0 < d → (0 + (d - 1)) / d = 0 := by
    intro d hd
    exact Nat.div_eq_of_lt (by omega)
  refine ⟨?_, ?_, ?_, ?_, by decide⟩
  · intro rank capacity base hb
    have hd := documentsPerRow_pos rank base hb
    refine ⟨_, rowsNeeded_eq_some rank capacity base hd, ?_, ?_⟩
    · exact (ceilDiv_le_iff capacity _ _ hd).mp (Nat.le_refl _)
    · intro n hn
      exact (ceilDiv_le_iff capacity _ n hd).mpr hn
  · intro rank base hb
    have hd := documentsPerRow_pos rank base hb
    rw [rowsNeeded_eq_some rank 0 base hd, hzero _ hd]
  · intro rank base r h
    rcases Nat.eq_zero_or_pos (documentsPerRow rank base) with hd | hd
    · simp [rowsNeeded, hd] at h
    · rw [rowsNeeded_eq_some rank 0 base hd, hzero _ hd] at h
      injection h with h
      exact h.symm
  · intro rank base hb
    have hd := documentsPerRow_pos rank base hb
    rw [rowsNeeded_eq_some rank _ base hd]
    congr 1
    apply Nat.le_antisymm
    · exact (ceilDiv_le_iff _ _ 1 hd).mpr (by omega)
    · by_contra hlt
      have hz : (documentsPerRow rank base + (documentsPerRow rank base - 1)) /
          documentsPerRow rank base ≤ 0 := by omega
      have := (ceilDiv_le_iff _ _ 0 hd).mp hz
      omega

/-- Witness for C15: at rank 3 and base 64 one row holds 512 documents, so 512
documents need one row and 513 need two. -/
theorem rowsNeeded_ceiling_witness :
    rowsNeeded 3 (documentsPerRow 3 64) 64 = some 1 ∧
    rowsNeeded 3 513 64 = some 2 ∧
    (∃ r : Nat, rowsNeeded 3 513 64 = some r ∧ 513 ≤ r * documentsPerRow 3 64 ∧
      ∀ n : Nat, 513 ≤ n * documentsPerRow 3 64 → r ≤ n) :=
  ⟨rowsNeeded_ceiling.2.2.2.1 3 64 (by decide), by decide,
    rowsNeeded_ceiling.1 3 513 64 (by decide)⟩

/-- C16: `IsValid` returns true for every `RowId` value, in particular for the
default value, for every shifted value and for every validated value. -/
theorem RowId_isValid_always (L : RowIdLayout) :
    (∀ r : RowId, RowId.IsValid r = true) ∧
    RowId.IsValid RowId.RowIdDefault = true ∧
    (∀ (base : RowId) (delta : Nat), RowId.IsValid (RowId.RowIdShifted L base delta) = true) ∧
    (∀ (rank index : Nat) (isAdhoc : Bool) (r : RowId),
      RowId.RowId L rank index isAdhoc = Except.ok r → RowId.IsValid r = true) := by
  refine ⟨fun _ => rfl, rfl, fun _ _ => rfl, fun _ _ _ _ _ => rfl⟩

/-- C17: a value returned by the validating constructor, and the default value,
has rank at most `c_maxRankValue`, index at most `c_maxRowIndexValue` and padding
0; the shifted constructor keeps the rank bound (and padding 0) always, and keeps
the index bound whenever `base.index + delta` is within it. -/
theorem RowId_range_invariant (L : RowIdLayout) :
    (∀ (rank index : Nat) (isAdhoc : Bool) (r : RowId),
      RowId.RowId L rank index isAdhoc = Except.ok r →
        RowId.GetRank r ≤ L.c_maxRankValue ∧ RowId.GetIndex r ≤ L.c_maxRowIndexValue ∧
          r.m_unused = 0) ∧
    (RowId.GetRank RowId.RowIdDefault ≤ L.c_maxRankValue ∧
      RowId.GetIndex RowId.RowIdDefault ≤ L.c_maxRowIndexValue ∧
      RowId.RowIdDefault.m_unused = 0) ∧
    (∀ (base : RowId) (delta : Nat), RowId.GetRank base ≤ L.c_maxRankValue →
      RowId.GetRank (RowId.RowIdShifted L base delta) ≤ L.c_maxRankValue) ∧
    (∀ (base : RowId) (delta : Nat), (RowId.RowIdShifted L base delta).m_unused = 0) ∧
    (∀ (base : RowId) (delta : Nat), RowId.GetIndex base + delta ≤ L.c_maxRowIndexValue →
      RowId.GetIndex (RowId.RowIdShifted L base delta) ≤ L.c_maxRowIndexValue) := by
  refine ⟨?_, ⟨Nat.zero_le _, Nat.zero_le _, rfl⟩, fun _ _ h => h, fun _ _ => rfl, ?_⟩
  · intro rank index isAdhoc r h
    obtain ⟨hi, hr, rfl⟩ := (RowId_RowId_ok_iff L rank index isAdhoc r).mp h
    exact ⟨Nat.le_trans (Nat.mod_le _ _) hr, Nat.le_trans (Nat.mod_le _ _) hi, rfl⟩
  · intro base delta h
    exact Nat.le_trans (RowIdShifted_index_le L base delta) h

/-- C18: when the size-only descriptor pass returns a `size_t`, the minimum block
size is exactly its result for the null buffer and the capacity
`DocumentsInRank0Row(1, GetMaxRankUsed(termTable))`; it is determined by that one
call, so configurations that agree on it, and equal inputs, give equal sizes. -/
theorem GetMinimumBlockSize_eq_dry_run {Schema TermTable : Type}
    (E : BlockSizingEnv Schema TermTable) (schema : Schema) (termTable : TermTable)
    (hsize : E.InitializeDescriptors none
      (E.DocumentsInRank0Row 1 (E.GetMaxRankUsed termTable)) schema termTable < c_sizeT) :
    GetMinimumBlockSize E schema termTable =
      E.InitializeDescriptors none
        (E.DocumentsInRank0Row 1 (E.GetMaxRankUsed termTable)) schema termTable ∧
    (∀ E2 : BlockSizingEnv Schema TermTable,
      E2.GetMaxRankUsed termTable = E.GetMaxRankUsed termTable →
      E2.DocumentsInRank0Row 1 (E.GetMaxRankUsed termTable) =
        E.DocumentsInRank0Row 1 (E.GetMaxRankUsed termTable) →
      E2.InitializeDescriptors none
          (E.DocumentsInRank0Row 1 (E.GetMaxRankUsed termTable)) schema termTable =
        E.InitializeDescriptors none
          (E.DocumentsInRank0Row 1 (E.GetMaxRankUsed termTable)) schema termTable →
      GetMinimumBlockSize E2 schema termTable = GetMinimumBlockSize E schema termTable) ∧
    (∀ (schema2 : Schema) (termTable2 : TermTable), schema2 = schema → termTable2 = termTable →
      GetMinimumBlockSize E schema2 termTable2 = GetMinimumBlockSize E schema termTable) := by
  refine ⟨Nat.mod_eq_of_lt hsize, ?_, ?_⟩
  · intro E2 h1 h2 h3
    simp only [GetMinimumBlockSize, h1, h2, h3]
  · rintro schema2 termTable2 rfl rfl
    rfl

/-- Witness for C18: a size-only pass that reports 1000 bytes. -/
theorem GetMinimumBlockSize_eq_dry_run_witness :
    GetMinimumBlockSize (sampleEnv 1000) () () =
      (sampleEnv 1000).InitializeDescriptors none
        ((sampleEnv 1000).DocumentsInRank0Row 1 ((sampleEnv 1000).GetMaxRankUsed ())) () () :=
  (GetMinimumBlockSize_eq_dry_run (sampleEnv 1000) () () (by decide)).1

/-- C19: for an index bit-field of at most 32 bits, a base built by the validating
constructor and a delta with `base.index + delta ≤ c_maxRowIndexValue`, the
validated construction from (base.rank, base.index + delta, base.isAdhoc) succeeds
and is `operator==`-equal to the shifted construction. -/
theorem RowId_shifted_eq_validated (L : RowIdLayout) (hw : L.indexBits ≤ 32)
    (rank index : Nat) (isAdhoc : Bool) (base : RowId)
    (hbase : RowId.RowId L rank index isAdhoc = Except.ok base)
    (delta : Nat) (hd : RowId.GetIndex base + delta ≤ L.c_maxRowIndexValue) :
    ∃ r, RowId.RowId L (RowId.GetRank base) (RowId.GetIndex base + delta)
        (RowId.IsAdhoc base) = Except.ok r ∧
      RowId.eq (RowId.RowIdShifted L base delta) r = true := by
  obtain ⟨hi, hr, hb⟩ := (RowId_RowId_ok_iff L rank index isAdhoc base).mp hbase
  have hrank : RowId.GetRank base ≤ L.c_maxRankValue := by
    rw [hb]; exact Nat.le_trans (Nat.mod_le _ _) hr
  refine ⟨_, RowId_RowId_eq_ok L _ _ _ hd hrank, ?_⟩
  rw [RowId_eq_eq_true_iff]
  refine ⟨?_, ?_, ?_⟩
  · simp only [RowId.RowIdShifted, RowId.GetRank]
    rw [hb]
    exact (Nat.mod_mod _ _).symm
  · exact RowIdShifted_index_eq L hw base delta
  · simp only [RowId.RowIdShifted, RowId.IsAdhoc]
    rw [hb]
    cases isAdhoc <;> simp

/-- Witness for C19 in `sampleLayout`: base (5, 100, ad-hoc) shifted by 23. -/
theorem RowId_shifted_eq_validated_witness :
    ∃ r, RowId.RowId sampleLayout (RowId.GetRank ⟨5, 100, 1, 0⟩)
        (RowId.GetIndex ⟨5, 100, 1, 0⟩ + 23) (RowId.IsAdhoc ⟨5, 100, 1, 0⟩) = Except.ok r ∧
      RowId.eq (RowId.RowIdShifted sampleLayout ⟨5, 100, 1, 0⟩ 23) r = true :=
  RowId_shifted_eq_validated sampleLayout (by decide) 5 100 true ⟨5, 100, 1, 0⟩ (by rfl)
    23 (by decide)

/-- C20: for an index bit-field of at most 32 bits, shifting a value whose index
fits the bit-field by 0 gives an `operator==`-equal value, and shifting by `delta1`
and then by `delta2` gives a value `operator==`-equal to shifting once by
`delta1 + delta2` taken in `size_t` arithmetic. -/
theorem RowId_shifted_compose (L : RowIdLayout) (hw : L.indexBits ≤ 32) (a : RowId) :
    (a.m_index < 2 ^ L.indexBits → RowId.eq (RowId.RowIdShifted L a 0) a = true) ∧
    (∀ delta1 delta2 : Nat,
      RowId.eq (RowId.RowIdShifted L (RowId.RowIdShifted L a delta1) delta2)
        (RowId.RowIdShifted L a ((delta1 + delta2) % c_sizeT)) = true) := by
  have hdvd : (2 : Nat) ^ L.indexBits ∣ c_sizeT :=
    Nat.pow_dvd_pow 2 (Nat.le_trans hw (by decide))
  refine ⟨?_, ?_⟩
  · intro ha
    rw [RowId_eq_eq_true_iff]
    refine ⟨rfl, ?_, rfl⟩
    rw [RowIdShifted_index_eq L hw, Nat.add_zero]
    exact Nat.mod_eq_of_lt ha
  · intro delta1 delta2
    rw [RowId_eq_eq_true_iff]
    refine ⟨rfl, ?_, rfl⟩
    rw [RowIdShifted_index_eq L hw, RowIdShifted_index_eq L hw, RowIdShifted_index_eq L hw]
    rw [Nat.add_mod a.m_index ((delta1 + delta2) % c_sizeT), Nat.mod_mod_of_dvd _ hdvd,
      ← Nat.add_mod, Nat.mod_add_mod, Nat.add_assoc]

/-- Witness for C20 in `sampleLayout`: two shifts that wrap the 27-bit index. -/
theorem RowId_shifted_compose_witness :
    RowId.eq (RowId.RowIdShifted sampleLayout ⟨2, 7, 0, 0⟩ 0) ⟨2, 7, 0, 0⟩ = true ∧
    RowId.eq
      (RowId.RowIdShifted sampleLayout (RowId.RowIdShifted sampleLayout ⟨2, 7, 0, 0⟩ (2 ^ 27 - 4)) 9)
      (RowId.RowIdShifted sampleLayout ⟨2, 7, 0, 0⟩ ((2 ^ 27 - 4 + 9) % c_sizeT)) = true :=
  ⟨(RowId_shifted_compose sampleLayout (by decide) ⟨2, 7, 0, 0⟩).1 (by decide),
    (RowId_shifted_compose sampleLayout (by decide) ⟨2, 7, 0, 0⟩).2 (2 ^ 27 - 4) 9⟩

end BitFunnel
